import Mathlib

/-!
Verification of the DressCode dataset loader (`src/datasets/dresscode.py`) and
the head/body compositor (`src/utils/image_composition.py`).

The Python code is shallowly embedded: dictionaries become association lists
with Python `dict` lookup/update semantics, numpy/torch arrays over floats
become functions `Nat → Nat → ℚ`, and the control flow of `__init__` /
`__getitem__` is reproduced as executable Lean functions.
-/

namespace DressCode

/-- Python dict from garment-id strings to caption lists, as an association
list in insertion order (JSON objects have unique keys; lookup takes the
first binding). -/
abbrev PyDict := List (String × List String)

/-- Membership / lookup, Python `k in d` and `d[k]`. -/
def dictLookup (d : PyDict) (k : String) : Option (List String) :=
  match d with
  | [] => none
  | (k', v) :: rest => if k' = k then some v else dictLookup rest k

/-- Python `d.update(e)`: every key of `d` already present keeps its position
but receives `e`'s value when `e` has the key; keys of `e` not in `d` are
appended in `e`'s order. -/
def dictUpdate (d e : PyDict) : PyDict :=
  (d.map (fun kv => (kv.1, (dictLookup e kv.1).getD kv.2)))
    ++ e.filter (fun kv => (dictLookup d kv.1).isNone)

/-- Line 81 of `dresscode.py`: keep only fine-caption entries with at least
three captions. -/
def filterFine (fine : PyDict) : PyDict :=
  fine.filter (fun kv => 3 ≤ kv.2.length)

/-- Lines 79-84 of `dresscode.py`: load the fine captions, drop entries with
fewer than three captions, then `update` with the coarse captions. -/
def mergeCaptions (fine coarse : PyDict) : PyDict :=
  dictUpdate (filterFine fine) coarse

/-- Python `c_name.split('_')[0]`: the garment identifier of a garment
filename, the characters before the first underscore (the whole name when
there is none). -/
def garmentId (c : String) : String :=
  String.mk (c.data.takeWhile (fun ch => ch ≠ '_'))

/-- Pairing-file line already whitespace-split into
`(im_name, c_name)`. -/
abbrev PairLine := String × String

/-- Lines 99-113 of `dresscode.py`, the `num_test_image > 0` branch: walk the
pairing lines with a counter `i` that starts at 0, break as soon as
`i > num_test_image`, skip lines whose garment id is not a caption key, and
count only appended lines. -/
def collectLimited (caps : PyDict) (num : Int) : Int → List PairLine → List PairLine
  | _, [] => []
  | i, l :: ls =>
    if num < i then []
    else if (dictLookup caps (garmentId l.2)).isNone then collectLimited caps num i ls
    else l :: collectLimited caps num (i + 1) ls

/-- Lines 115-123 of `dresscode.py`, the unlimited branch: keep every line
whose garment id is a caption key. -/
def collectAll (caps : PyDict) (lines : List PairLine) : List PairLine :=
  lines.filter (fun l => (dictLookup caps (garmentId l.2)).isSome)

/-- Per-category contribution to the index (lines 97-123). -/
def collectCategory (caps : PyDict) (num : Int) (lines : List PairLine) : List PairLine :=
  if 0 < num then collectLimited caps num 0 lines else collectAll caps lines

/-- The three parallel index sequences built by `__init__` (lines 66-127):
`im_names`, `c_names`, `dataroot_names`.  Each category contributes the lines
of its pairing file filtered (and possibly truncated) by
`collectCategory`. -/
def buildIndex (caps : PyDict) (num : Int) (cats : List (String × List PairLine)) :
    List String × List String × List String :=
  match cats with
  | [] => ([], [], [])
  | (cname, lines) :: rest =>
    let picked := collectCategory caps num lines
    let prev := buildIndex caps num rest
    (picked.map Prod.fst ++ prev.1, picked.map Prod.snd ++ prev.2.1,
      picked.map (fun _ => cname) ++ prev.2.2)

/-- The fourth index sequence, `multimodal_data_path_names`: the unlimited
branch appends one entry per kept line (line 123), but the
`num_test_image > 0` branch of lines 99-113 never appends to it, leaving it
empty on limited-mode datasets. -/
def buildMultimodalIndex (caps : PyDict) (num : Int)
    (cats : List (String × List PairLine)) : List String :=
  match cats with
  | [] => []
  | (cname, lines) :: rest =>
    (if 0 < num then [] else (collectAll caps lines).map (fun _ => cname))
      ++ buildMultimodalIndex caps num rest

/-- Lines 71-74 of `dresscode.py`: the accepted output-field vocabulary. -/
def possible_outputs : List String :=
  ["c_name", "im_name", "cloth", "image", "im_cloth", "shape", "im_head", "im_pose",
   "pose_map", "parse_array", "dense_labels", "dense_uv", "skeleton",
   "im_mask", "inpaint_mask", "parse_mask_total", "cloth_sketch", "im_sketch", "captions",
   "original_captions", "category", "hands", "parse_head_2", "stitch_label"]

/-- Line 76 of `dresscode.py`: the constructor's
`assert all(x in possible_outputs for x in outputlist)`. -/
def acceptsOutputlist (ol : List String) : Bool :=
  ol.all (fun x => possible_outputs.contains x)

/-- Gate of the caption block (line 146). -/
def needsCaptions (ol : List String) : Bool :=
  ol.contains "captions" || ol.contains "original_captions"

/-- Gate of the image-loading block (line 165). -/
def needsImage (ol : List String) : Bool :=
  ol.contains "image" || ol.contains "im_head" || ol.contains "im_cloth"

/-- Gate of the sketch block (line 171). -/
def needsSketch (ol : List String) : Bool := ol.contains "im_sketch"

/-- Gate of the label-map/mask/pose block (line 187). -/
def needsMaskBranch (ol : List String) : Bool :=
  ol.contains "im_pose" || ol.contains "parser_mask" || ol.contains "im_mask" ||
  ol.contains "parse_mask_total" || ol.contains "parse_array" || ol.contains "pose_map" ||
  ol.contains "shape" || ol.contains "im_head"

/-- Gate of the stitch-label block (line 397). -/
def needsStitch (ol : List String) : Bool := ol.contains "stitch_label"

/-- Local variable names bound inside `__getitem__` by the time it reaches
the result-assembly loop (line 402), as a function of the requested output
list, for a call whose index accesses of lines 139-142 succeeded
(`getitemKeys` guards those accesses — in particular line 142's
`multimodal_data_path` is only bound when `multimodal_data_path_names` is
long enough).  Follows the conditional blocks of lines 139-400 in program
order; loop-local names that are only bound when iteration data is nonempty
are omitted (none of them appears in `possible_outputs`). -/
def boundLocals (ol : List String) : List String :=
  ["c_name", "im_name", "dataroot", "multimodal_data_path", "sketch_threshold"]
  ++ (if needsCaptions ol then
        ["captions", "original_captions"]
        ++ (if ol.contains "captions" then ["cond_input", "max_length", "uncond_input"] else [])
      else [])
  ++ (if needsImage ol then ["image"] else [])
  ++ (if needsSketch ol then ["im_sketch"] else [])
  ++ (if needsMaskBranch ol then
        ["parse_name", "im_parse", "parse_array", "parse_shape", "parse_head",
         "parser_mask_fixed", "parser_mask_changeable", "arms", "category", "label_cat",
         "parse_cloth", "parse_mask", "parse_without_cloth"]
        ++ (if ol.contains "im_head" then ["im_head"] else [])
        ++ (if ol.contains "im_cloth" then ["im_cloth"] else [])
        ++ ["shape", "pose_name", "pose_label", "pose_data", "point_num", "pose_map", "r",
            "im_pose", "pose_draw", "neck", "neck_draw", "d", "im_arms", "arms_draw", "data",
            "shoulder_right", "shoulder_left", "elbow_right", "elbow_left",
            "wrist_right", "wrist_left", "hands", "parse_head_2", "parse_mask_total",
            "im_mask", "inpaint_mask", "bboxes", "xmin", "xmax", "ymin", "ymax"]
      else [])
  ++ (if needsStitch ol then ["stitch_labelmap", "stitch_label"] else [])

/-- Output fields accepted by the constructor that no code path of
`__getitem__` ever binds as a local variable. -/
def neverComputed : List String :=
  ["cloth", "cloth_sketch", "dense_labels", "dense_uv", "skeleton"]

/-- Every local name `__getitem__` can ever bind: requesting the whole
vocabulary turns on every conditional block. -/
def allLocals : List String := boundLocals possible_outputs

/-- Lines 402-404 of `dresscode.py`: `result[k] = vars()[k]` for each
requested field, in request order; a field absent from the locals raises a
`KeyError`.  Dict insertion keeps the first position of a repeated key. -/
def assembleResult : List String → List String → List String → Except String (List String)
  | [], _, acc => .ok acc
  | k :: ks, bound, acc =>
    if bound.contains k then
      assembleResult ks bound (if acc.contains k then acc else acc ++ [k])
    else .error ("KeyError: " ++ k)

/-- Key-level behaviour of one `__getitem__` call (all file reads assumed to
succeed), at position `index` of a dataset whose three parallel sequences
have length `n` and whose `multimodal_data_path_names` has length `nMulti`.
Lines 139-141 index the parallel sequences and line 142 indexes
`multimodal_data_path_names` — out-of-range access raises `IndexError`
before any field logic (on a limited-mode dataset `nMulti = 0`, so every
call at a valid index dies at line 142).  Past those, line 376 reads the
local `image` unconditionally inside the mask branch, so triggering that
branch without any image-loading field raises an `UnboundLocalError` before
the assembly loop; otherwise the result dict's keys are assembled from the
bound locals. -/
def getitemKeys (index n nMulti : Nat) (ol : List String) : Except String (List String) :=
  if n ≤ index then .error "IndexError: c_names"
  else if nMulti ≤ index then .error "IndexError: multimodal_data_path_names"
  else if needsMaskBranch ol && !needsImage ol then .error "UnboundLocalError: image"
  else assembleResult ol (boundLocals ol) []

/-- Construction-time state of a `DressCodeDataset` instance that
`__getitem__` can observe (lines 125-128 plus the caption dict). -/
structure DatasetState where
  captions_dict : PyDict
  im_names : List String
  c_names : List String
  dataroot_names : List String
  deriving DecidableEq

/-- Reindexing of a list by a list of positions; `random.shuffle` applied to
a list of length `n` realises `applyPerm p` for some permutation `p` of
`[0, …, n-1]`. -/
def applyPerm (p : List Nat) (xs : List String) : List String :=
  p.map (fun i => xs.getD i "")

/-- Effect of the in-place `random.shuffle(captions)` of line 150 on the
caption dict: `captions` aliases the stored list, so the binding at the
sample's garment id is permuted in place; other bindings are untouched. -/
def shuffleValueAt (key : String) (p : List Nat) (d : PyDict) : PyDict :=
  d.map (fun kv => if kv.1 = key then (kv.1, applyPerm p kv.2) else kv)

/-- State of the dataset object after one `__getitem__` call (lines 146-153):
the caption block runs when captions are requested, and shuffles in place
only in phase `train`; no other construction-time state is assigned. -/
def getitemStateAfter (ol : List String) (phase : String) (gid : String)
    (p : List Nat) (s : DatasetState) : DatasetState :=
  if needsCaptions ol && (phase == "train") then
    { s with captions_dict := shuffleValueAt gid p s.captions_dict }
  else s

/-- Painted region of a grayscale `PIL` image, true where white was drawn.
Coordinates are rationals, the idealisation of the float pixel geometry. -/
abbrev Region := ℚ → ℚ → Bool

/-- Image.new gives an all-black image. -/
def emptyRegion : Region := fun _ _ => false

/-- Filled axis-aligned square drawn by
`draw.rectangle((px - r, py - r, px + r, py + r))`. -/
def squareStamp (px py r : ℚ) : Region := fun x y =>
  decide (px - r ≤ x) && decide (x ≤ px + r) && decide (py - r ≤ y) && decide (y ≤ py + r)

/-- Filled ellipse drawn by
`draw.ellipse((px - 4r, py - 4r, px + 4r, py + 4r))`; the box is square, so
this is the disk of radius `4r`. -/
def ellipseStamp (px py r4 : ℚ) : Region := fun x y =>
  decide ((x - px) ^ 2 + (y - py) ^ 2 ≤ r4 ^ 2)

/-- Pointwise union of painted regions (drawing on an existing image). -/
def regionUnion (a b : Region) : Region := fun x y => a x y || b x y

/-- The three images painted in the keypoint loop of lines 282-294. -/
structure PoseDrawState where
  one_map : Region
  im_pose : Region
  neck : Region

/-- One iteration of the keypoint loop (lines 282-294 of `dresscode.py`):
rescale the raw point by `width/384` and `height/512`, and when both
rescaled coordinates exceed 1 stamp a filled square of radius
`radius * height/512` onto the per-point heatmap and the pose-visualization
image (plus a `4r` ellipse on the neck image for shoulder indices 2 and 5);
otherwise leave all three images untouched. -/
def drawPointStep (width height radius : ℚ) (i : Nat) (raw : ℚ × ℚ)
    (st : PoseDrawState) : PoseDrawState :=
  let point_x := raw.1 * (width / 384)
  let point_y := raw.2 * (height / 512)
  let r := radius * (height / 512)
  if 1 < point_x ∧ 1 < point_y then
    { one_map := regionUnion st.one_map (squareStamp point_x point_y r)
      im_pose := regionUnion st.im_pose (squareStamp point_x point_y r)
      neck := if i = 2 ∨ i = 5 then regionUnion st.neck (ellipseStamp point_x point_y (r * 4))
              else st.neck }
  else st

/-- Modelled from the spec: the "not detected" sentinel, "a point with both
rescaled coordinates ≤ 1 is treated as not detected". -/
def specSentinel (point_x point_y : ℚ) : Prop := point_x ≤ 1 ∧ point_y ≤ 1

/-- Float numpy array over the image plane (row, column). -/
abbrev Grid := Nat → Nat → ℚ

/-- Pointwise `+=` of two numpy arrays. -/
def gridAdd (a b : Grid) : Grid := fun y x => a y x + b y x

/-- Line 346 of `dresscode.py`:
`hands = np.logical_and(np.logical_not(im_arms), arms)` as a 0/1 float
grid. -/
def handsMask (im_arms arms : Grid) : Grid :=
  fun y x => if im_arms y x = 0 ∧ arms y x ≠ 0 then 1 else 0

/-- Lines 314-350 of `dresscode.py`, the arm/hand fold step: for the three
known categories the `hands` mask is computed, and only for `dresses` and
`upper_body` is `im_arms` added into `parse_mask` and `hands` added into
`parser_mask_fixed`. -/
def foldArmHand (category : String) (parse_mask parser_mask_fixed im_arms arms : Grid) :
    Grid × Grid :=
  if category = "dresses" ∨ category = "upper_body" ∨ category = "lower_body" then
    let hands := handsMask im_arms arms
    if category = "dresses" ∨ category = "upper_body" then
      (gridAdd parse_mask im_arms, gridAdd parser_mask_fixed hands)
    else (parse_mask, parser_mask_fixed)
  else (parse_mask, parser_mask_fixed)

/-- Boolean mask over the image plane (row, column). -/
abbrev Mask := Nat → Nat → Bool

/-- Column indices holding at least one nonzero pixel, ascending. -/
def nonzeroCols (h w : Nat) (m : Mask) : List Nat :=
  (List.range w).filter (fun x => (List.range h).any (fun y => m y x))

/-- Row indices holding at least one nonzero pixel, ascending. -/
def nonzeroRows (h w : Nat) (m : Mask) : List Nat :=
  (List.range h).filter (fun y => (List.range w).any (fun x => m y x))

/-- The `masks_to_boxes` x-minimum: least column with a nonzero pixel. -/
def bboxXmin (h w : Nat) (m : Mask) : Nat := ((nonzeroCols h w m).min?).getD 0

/-- The `masks_to_boxes` x-maximum: greatest column with a nonzero pixel. -/
def bboxXmax (h w : Nat) (m : Mask) : Nat := ((nonzeroCols h w m).max?).getD 0

/-- The `masks_to_boxes` y-minimum: least row with a nonzero pixel. -/
def bboxYmin (h w : Nat) (m : Mask) : Nat := ((nonzeroRows h w m).min?).getD 0

/-- The `masks_to_boxes` y-maximum: greatest row with a nonzero pixel. -/
def bboxYmax (h w : Nat) (m : Mask) : Nat := ((nonzeroRows h w m).max?).getD 0

/-- Membership in the bounding box computed at lines 380-385; the slice
`[ymin:ymax+1, xmin:xmax+1]` of line 387 covers exactly these pixels. -/
def inBbox (h w : Nat) (m : Mask) (y x : Nat) : Prop :=
  bboxYmin h w m ≤ y ∧ y ≤ bboxYmax h w m ∧ bboxXmin h w m ≤ x ∧ x ≤ bboxXmax h w m

instance (h w : Nat) (m : Mask) (y x : Nat) : Decidable (inBbox h w m y x) := by
  unfold inBbox; infer_instance

/-- Lines 380-389 of `dresscode.py`: inside the bounding box of
`inpaint_mask`'s nonzero pixels the mask is overwritten with
`logical_and(ones, logical_not(parser_mask_fixed))`; outside the box it is
unchanged. -/
def boxRewrite (h w : Nat) (inpaint parser_mask_fixed : Mask) : Mask :=
  fun y x =>
    if inBbox h w inpaint y x then !(parser_mask_fixed y x)
    else inpaint y x

end DressCode

namespace ImageComposition

/-- Per-pixel label image (`im_parse`). -/
abbrev LabelGrid := Nat → Nat → Nat

/-- Single-channel float image. -/
abbrev Img := Nat → Nat → ℚ

/-- Multiplication of an image by a boolean mask, `tensor * bool_tensor`. -/
def maskMul (a : Img) (m : Nat → Nat → Bool) : Img :=
  fun y x => a y x * (if m y x then 1 else 0)

/-- Lines 12-14 of `image_composition.py`: head region as the union of label
codes 1, 2, 4 and 13. -/
def segHead (im_parse : LabelGrid) : Nat → Nat → Bool :=
  fun y x =>
    (im_parse y x == 1) || (im_parse y x == 2) || (im_parse y x == 4) || (im_parse y x == 13)

/-- Lines 10-30 of `image_composition.py`:
`gt_img * seg_head + (fake_img / 255) * ~seg_head`, with `seg_head` derived
from the label map. -/
def compose_img (gt_img fake_img : Img) (im_parse : LabelGrid) : Img :=
  fun y x =>
    (maskMul gt_img (segHead im_parse)) y x
      + (maskMul (fun y' x' => fake_img y' x' / 255) (fun y' x' => !(segHead im_parse y' x'))) y x

/-- Lines 32-37 of `image_composition.py`:
`gt_img * im_head + fake_img * ~im_head` with a precomputed head mask. -/
def compose_img_dresscode (gt_img fake_img : Img) (im_head : Nat → Nat → Bool) : Img :=
  fun y x =>
    (maskMul gt_img im_head) y x
      + (maskMul fake_img (fun y' x' => !(im_head y' x'))) y x

end ImageComposition

namespace DressCode

lemma dictLookup_append (d e : PyDict) (k : String) :
    dictLookup (d ++ e) k = (dictLookup d k).or (dictLookup e k) := by
  induction d with
  | nil => simp [dictLookup]
  | cons kv rest ih =>
    by_cases hk : kv.1 = k
    · simp [dictLookup, hk]
    · simp [dictLookup, hk, ih]

lemma dictLookup_map_getD (d e : PyDict) (k : String) :
    dictLookup (d.map (fun kv => (kv.1, (dictLookup e kv.1).getD kv.2))) k
      = (dictLookup d k).map (fun v => (dictLookup e k).getD v) := by
  induction d with
  | nil => simp [dictLookup]
  | cons kv rest ih =>
    by_cases hk : kv.1 = k
    · simp [dictLookup, hk]
    · simp [dictLookup, hk, ih]

lemma dictLookup_filter_isNone (d e : PyDict) (k : String) :
    dictLookup (e.filter (fun kv => (dictLookup d kv.1).isNone)) k
      = if (dictLookup d k).isNone then dictLookup e k else none := by
  induction e with
  | nil => simp [dictLookup]
  | cons kv rest ih =>
    by_cases hk : kv.1 = k
    · subst hk
      cases hn : (dictLookup d kv.1).isNone <;>
        simp [List.filter_cons, dictLookup, hn, ih]
    · cases hn : (dictLookup d kv.1).isNone <;>
        simp [List.filter_cons, dictLookup, hk, hn, ih]

lemma collectLimited_sound (caps : PyDict) (num : Int) (ls : List PairLine) :
    ∀ (i : Int) (l : PairLine), l ∈ collectLimited caps num i ls →
      (dictLookup caps (garmentId l.2)).isSome := by
  induction ls with
  | nil => intro i l h; simp [collectLimited] at h
  | cons a ls ih =>
    intro i l h
    by_cases h1 : num < i
    · simp [collectLimited, h1] at h
    · by_cases h2 : (dictLookup caps (garmentId a.2)).isNone
      · rw [collectLimited, if_neg h1, if_pos h2] at h
        exact ih i l h
      · rw [collectLimited, if_neg h1, if_neg h2] at h
        rcases List.mem_cons.mp h with rfl | hmem
        · cases hq : dictLookup caps (garmentId l.2) with
          | none => exact absurd (by simp [hq]) h2
          | some v => simp [hq]
        · exact ih (i + 1) l hmem

lemma collectCategory_sound (caps : PyDict) (num : Int) (ls : List PairLine)
    (l : PairLine) (h : l ∈ collectCategory caps num ls) :
    (dictLookup caps (garmentId l.2)).isSome := by
  unfold collectCategory at h
  by_cases hn : 0 < num
  · rw [if_pos hn] at h
    exact collectLimited_sound caps num ls 0 l h
  · rw [if_neg hn] at h
    exact (List.mem_filter.mp h).2

lemma buildIndex_parallel (caps : PyDict) (num : Int)
    (cats : List (String × List PairLine)) :
    ((buildIndex caps num cats).1.length = (buildIndex caps num cats).2.1.length
      ∧ (buildIndex caps num cats).2.1.length = (buildIndex caps num cats).2.2.length)
    ∧ ∀ c ∈ (buildIndex caps num cats).2.1, (dictLookup caps (garmentId c)).isSome := by
  induction cats with
  | nil => simp [buildIndex]
  | cons cat rest ih =>
    obtain ⟨⟨ih1, ih2⟩, ihm⟩ := ih
    refine ⟨⟨?_, ?_⟩, ?_⟩
    · simp [buildIndex, ih1]
    · simp [buildIndex, ih2]
    · intro c hc
      simp only [buildIndex, List.mem_append] at hc
      rcases hc with hc | hc
      · obtain ⟨l, hl, rfl⟩ := List.mem_map.mp hc
        exact collectCategory_sound caps num cat.2 l hl
      · exact ihm c hc

/-- C2: after construction the three parallel index sequences (`im_names`,
`c_names`, `dataroot_names`) have equal length, and the garment identifier
of every indexed garment filename is a key of the merged caption table. -/
theorem index_parallel_and_captioned (fine coarse : PyDict) (num : Int)
    (cats : List (String × List PairLine)) :
    ((buildIndex (mergeCaptions fine coarse) num cats).1.length
        = (buildIndex (mergeCaptions fine coarse) num cats).2.1.length
      ∧ (buildIndex (mergeCaptions fine coarse) num cats).2.1.length
        = (buildIndex (mergeCaptions fine coarse) num cats).2.2.length)
    ∧ ∀ c ∈ (buildIndex (mergeCaptions fine coarse) num cats).2.1,
        (dictLookup (mergeCaptions fine coarse) (garmentId c)).isSome :=
  buildIndex_parallel (mergeCaptions fine coarse) num cats

/-- Witness for C2 at a concrete one-category index: the collected garment
filename has its identifier in the merged caption table. -/
theorem index_parallel_and_captioned_witness :
    (dictLookup (mergeCaptions [] [("g", ["cap"])]) (garmentId "g_1.jpg")).isSome = true :=
  (index_parallel_and_captioned [] [("g", ["cap"])] 0
      [("upper_body", [("i_0.jpg", "g_1.jpg")])]).2 "g_1.jpg" (by decide)

/-- C3: evaluation of the limited index-construction branch at
`num_test_image = 1` over three matching pairing lines — the loop breaks
only once the counter exceeds the limit, so it collects 2 = limit + 1
records for the category instead of at most 1. -/
theorem limit_collects_one_extra :
    (buildIndex [("g", ["c1"])] 1
        [("upper_body",
          [("i1_0.jpg", "g_1.jpg"), ("i2_0.jpg", "g_2.jpg"), ("i3_0.jpg", "g_3.jpg")])]).2.1
      = ["g_1.jpg", "g_2.jpg"] := by decide

/-- C5: the merged caption table is the fine table restricted to entries with
at least 3 captions, updated by the coarse table with the coarse value
overwriting on every key conflict — looking up any key in the merge returns
the coarse binding when the coarse table has the key and the filtered fine
binding otherwise; in particular a garment id present in both tables maps to
the coarse value. -/
theorem caption_merge_coarse_wins (fine coarse : PyDict) (k : String) :
    dictLookup (mergeCaptions fine coarse) k
      = (dictLookup coarse k).or (dictLookup (filterFine fine) k) := by
  unfold mergeCaptions dictUpdate
  rw [dictLookup_append, dictLookup_map_getD, dictLookup_filter_isNone]
  cases hf : dictLookup (filterFine fine) k <;> cases hc : dictLookup coarse k <;>
    simp [hf, hc]

lemma dictLookup_shuffleValueAt (key : String) (p : List Nat) (d : PyDict) (k : String) :
    dictLookup (shuffleValueAt key p d) k
      = (dictLookup d k).map (fun v => if k = key then applyPerm p v else v) := by
  induction d with
  | nil => rfl
  | cons kv rest ih =>
    obtain ⟨k1, v1⟩ := kv
    simp only [shuffleValueAt, List.map_cons] at ih ⊢
    by_cases hkey : k1 = key
    · rw [if_pos hkey]
      by_cases hk : k1 = k
      · subst hk; subst hkey
        simp [dictLookup]
      · simp [dictLookup, hk, ih]
    · rw [if_neg hkey]
      by_cases hk : k1 = k
      · subst hk
        simp [dictLookup, hkey]
      · simp [dictLookup, hk, ih]

lemma applyPerm_perm (p : List Nat) (xs : List String)
    (hp : p.Perm (List.range xs.length)) : (applyPerm p xs).Perm xs := by
  have h2 : (List.range xs.length).map (fun i => xs.getD i "") = xs := by
    apply List.ext_getElem
    · simp
    · intro i h₁ h₂
      simp only [List.getElem_map, List.getElem_range]
      rw [List.getD_eq_getElem?_getD, List.getElem?_eq_getElem h₂]
      rfl
  have h3 : (applyPerm p xs).Perm ((List.range xs.length).map (fun i => xs.getD i "")) :=
    hp.map _
  rw [h2] at h3
  exact h3

lemma mem_of_mem_iteNil {c : Prop} [Decidable c] {L : List String} {k : String}
    (h : k ∈ (if c then L else [])) : k ∈ L := by
  split at h
  · exact h
  · exact absurd h (List.not_mem_nil k)

lemma mem_boundLocals_elim (ol : List String) (k : String) (h : k ∈ boundLocals ol) :
    k ∈ allLocals := by
  have hall : ∀ (L : List String), (∀ x ∈ L, x ∈ allLocals) → k ∈ L → k ∈ allLocals :=
    fun _ hs hk => hs k hk
  unfold boundLocals at h
  rcases List.mem_append.mp h with h5 | h5
  · rcases List.mem_append.mp h5 with h4 | h4
    · rcases List.mem_append.mp h4 with h3 | h3
      · rcases List.mem_append.mp h3 with h2 | h2
        · rcases List.mem_append.mp h2 with h1 | h1
          · exact hall _ (by decide) h1
          · have h1 := mem_of_mem_iteNil h1
            rcases List.mem_append.mp h1 with ha | ha
            · exact hall _ (by decide) ha
            · exact hall _ (by decide) (mem_of_mem_iteNil ha)
        · exact hall _ (by decide) (mem_of_mem_iteNil h2)
      · exact hall _ (by decide) (mem_of_mem_iteNil h3)
    · have h4 := mem_of_mem_iteNil h4
      rcases List.mem_append.mp h4 with hb | hb
      · rcases List.mem_append.mp hb with hc | hc
        · rcases List.mem_append.mp hc with hd | hd
          · exact hall _ (by decide) hd
          · exact hall _ (by decide) (mem_of_mem_iteNil hd)
        · exact hall _ (by decide) (mem_of_mem_iteNil hc)
      · exact hall _ (by decide) hb
  · exact hall _ (by decide) (mem_of_mem_iteNil h5)

lemma neverComputed_not_bound (ol : List String) (k : String) (hk : k ∈ neverComputed) :
    (boundLocals ol).contains k = false := by
  cases hcc : (boundLocals ol).contains k
  · rfl
  · have hmem : k ∈ boundLocals ol := by simpa using hcc
    have hin := mem_boundLocals_elim ol k hmem
    have hdis : ∀ x ∈ neverComputed, x ∉ allLocals := by decide
    exact absurd hin (hdis k hk)

lemma assembleResult_ok (bound : List String) :
    ∀ (ks acc : List String), (∀ k ∈ ks, bound.contains k = true) →
      ∃ res, assembleResult ks bound acc = .ok res
        ∧ ∀ k, k ∈ res ↔ (k ∈ acc ∨ k ∈ ks) := by
  intro ks
  induction ks with
  | nil =>
    intro acc _
    exact ⟨acc, rfl, by simp⟩
  | cons k ks ih =>
    intro acc hall
    have hk : bound.contains k = true := hall k (by simp)
    obtain ⟨res, hres, hmem⟩ :=
      ih (if acc.contains k then acc else acc ++ [k]) (fun k' hk' => hall k' (by simp [hk']))
    refine ⟨res, ?_, ?_⟩
    · rw [assembleResult, if_pos hk]
      exact hres
    · intro k'
      rw [hmem k']
      by_cases hak : acc.contains k = true
      · have hmk : k ∈ acc := by simpa using hak
        simp only [if_pos hak, List.mem_cons]
        constructor
        · rintro (h | h)
          · exact Or.inl h
          · exact Or.inr (Or.inr h)
        · rintro (h | rfl | h)
          · exact Or.inl h
          · exact Or.inl hmk
          · exact Or.inr h
      · simp only [if_neg hak, List.mem_append, List.mem_singleton, List.mem_cons]
        tauto

lemma assembleResult_fails (bound : List String) :
    ∀ (ks acc : List String) (k : String), k ∈ ks → bound.contains k = false →
      ∃ k', assembleResult ks bound acc = .error ("KeyError: " ++ k') := by
  intro ks
  induction ks with
  | nil =>
    intro acc k hk _
    exact absurd hk (List.not_mem_nil k)
  | cons k' ks ih =>
    intro acc k hk hfalse
    by_cases hk' : bound.contains k' = true
    · rcases List.mem_cons.mp hk with rfl | hmem
      · rw [hk'] at hfalse
        cases hfalse
      · obtain ⟨e, he⟩ := ih (if acc.contains k' then acc else acc ++ [k']) k hmem hfalse
        refine ⟨e, ?_⟩
        rw [assembleResult, if_pos hk']
        exact he
    · refine ⟨k', ?_⟩
      rw [assembleResult, if_neg hk']

lemma buildMultimodalIndex_limited (caps : PyDict) (num : Int)
    (cats : List (String × List PairLine)) (hnum : 0 < num) :
    buildMultimodalIndex caps num cats = [] := by
  induction cats with
  | nil => rfl
  | cons cat rest ih =>
    obtain ⟨cname, lines⟩ := cat
    simp [buildMultimodalIndex, hnum, ih]

lemma buildMultimodalIndex_unlimited_length (caps : PyDict) (num : Int)
    (cats : List (String × List PairLine)) (hnum : num ≤ 0) :
    (buildMultimodalIndex caps num cats).length
      = (buildIndex caps num cats).2.1.length := by
  have hnn : ¬ (0 : Int) < num := not_lt.mpr hnum
  induction cats with
  | nil => rfl
  | cons cat rest ih =>
    obtain ⟨cname, lines⟩ := cat
    simp [buildMultimodalIndex, buildIndex, collectCategory, hnn, ih]

/-- C1 (amended): on a dataset built in unlimited mode (`num_test_image ≤ 0`,
so `multimodal_data_path_names` is parallel to the other sequences), for
every valid sample index and every output-field set accepted at construction
in which each requested field is actually bound by `__getitem__` under that
set, and which requests an image-loading field whenever it triggers the mask
branch, the extraction call returns a mapping whose key set is exactly the
requested field set, no more, no less.  (On a limited-mode dataset every
extraction instead raises `IndexError` at line 142.) -/
theorem getitem_returns_requested_keys (fine coarse : PyDict) (num : Int)
    (cats : List (String × List PairLine)) (index : Nat) (ol : List String)
    (hnum : num ≤ 0)
    (hidx : index < (buildIndex (mergeCaptions fine coarse) num cats).2.1.length)
    (_hacc : acceptsOutputlist ol = true)
    (hmi : needsMaskBranch ol = true → needsImage ol = true)
    (hbound : ∀ k ∈ ol, (boundLocals ol).contains k = true) :
    ∃ keys, getitemKeys index (buildIndex (mergeCaptions fine coarse) num cats).2.1.length
        (buildMultimodalIndex (mergeCaptions fine coarse) num cats).length ol = .ok keys
      ∧ ∀ k, k ∈ keys ↔ k ∈ ol := by
  have hcond : (needsMaskBranch ol && !needsImage ol) = false := by
    cases hm : needsMaskBranch ol
    · simp
    · simp [hmi hm]
  have hmm : (buildMultimodalIndex (mergeCaptions fine coarse) num cats).length
      = (buildIndex (mergeCaptions fine coarse) num cats).2.1.length :=
    buildMultimodalIndex_unlimited_length (mergeCaptions fine coarse) num cats hnum
  obtain ⟨res, hres, hmem⟩ := assembleResult_ok (boundLocals ol) ol [] hbound
  refine ⟨res, ?_, fun k => by simpa using hmem k⟩
  unfold getitemKeys
  rw [if_neg (Nat.not_le.mpr hidx), hmm, if_neg (Nat.not_le.mpr hidx),
    if_neg (by simp [hcond])]
  exact hres

/-- Witness for C1 (amended): a concrete unlimited-mode dataset at index 0
with the constructor's default output list. -/
theorem getitem_returns_requested_keys_witness :
    ∃ keys, getitemKeys 0
        (buildIndex (mergeCaptions [] [("g", ["cap"])]) 0
          [("upper_body", [("i_0.jpg", "g_1.jpg")])]).2.1.length
        (buildMultimodalIndex (mergeCaptions [] [("g", ["cap"])]) 0
          [("upper_body", [("i_0.jpg", "g_1.jpg")])]).length
        ["c_name", "im_name", "image", "im_cloth", "shape", "pose_map",
          "parse_array", "im_mask", "inpaint_mask", "parse_mask_total", "im_sketch",
          "captions", "original_captions", "category", "stitch_label"] = .ok keys
      ∧ ∀ k, k ∈ keys ↔
          k ∈ ["c_name", "im_name", "image", "im_cloth", "shape", "pose_map",
            "parse_array", "im_mask", "inpaint_mask", "parse_mask_total", "im_sketch",
            "captions", "original_captions", "category", "stitch_label"] :=
  getitem_returns_requested_keys [] [("g", ["cap"])] 0
    [("upper_body", [("i_0.jpg", "g_1.jpg")])] 0
    ["c_name", "im_name", "image", "im_cloth", "shape", "pose_map",
      "parse_array", "im_mask", "inpaint_mask", "parse_mask_total", "im_sketch", "captions",
      "original_captions", "category", "stitch_label"]
    (by decide) (by decide) (by decide) (by decide) (by decide)

/-- C1 counterexample: two concrete refutations of the claim as stated — the
field `cloth` is accepted at construction yet extraction raises a `KeyError`
instead of returning a mapping with key set containing `cloth`; and on a
dataset built with `num_test_image = 1`, which leaves
`multimodal_data_path_names` empty, even the fully-computable request
`["image"]` at the valid index 0 raises `IndexError` at line 142. -/
theorem getitem_cloth_keyerror :
    (acceptsOutputlist ["cloth"] = true
      ∧ getitemKeys 0 1 1 ["cloth"] = .error "KeyError: cloth")
    ∧ getitemKeys 0
        (buildIndex (mergeCaptions [] [("g", ["cap"])]) 1
          [("upper_body", [("i_0.jpg", "g_1.jpg")])]).2.1.length
        (buildMultimodalIndex (mergeCaptions [] [("g", ["cap"])]) 1
          [("upper_body", [("i_0.jpg", "g_1.jpg")])]).length
        ["image"] = .error "IndexError: multimodal_data_path_names" :=
  ⟨⟨by decide, rfl⟩, rfl⟩

/-- C10 (amended): for every output-field set inside the accepted vocabulary
that contains a field the extractor never computes, construction succeeds,
and every extraction call at a valid index fails: on a limited-mode dataset
(`num_test_image > 0`) with the `IndexError` of line 142's access into the
never-populated `multimodal_data_path_names`, and on an unlimited-mode
dataset with a name-lookup error — the `KeyError` of the result-assembly
loop, or the earlier `UnboundLocalError` on the unloaded `image` when the
mask branch runs without an image-loading field. -/
theorem getitem_never_computed_error (fine coarse : PyDict) (num : Int)
    (cats : List (String × List PairLine)) (index : Nat) (ol : List String)
    (hsub : ∀ k ∈ ol, k ∈ possible_outputs)
    (hnc : ∃ k, k ∈ ol ∧ k ∈ neverComputed)
    (hidx : index < (buildIndex (mergeCaptions fine coarse) num cats).2.1.length) :
    acceptsOutputlist ol = true
    ∧ (0 < num →
        getitemKeys index (buildIndex (mergeCaptions fine coarse) num cats).2.1.length
            (buildMultimodalIndex (mergeCaptions fine coarse) num cats).length ol
          = .error "IndexError: multimodal_data_path_names")
    ∧ (num ≤ 0 →
        ∃ e, getitemKeys index (buildIndex (mergeCaptions fine coarse) num cats).2.1.length
            (buildMultimodalIndex (mergeCaptions fine coarse) num cats).length ol = .error e
          ∧ (e = "UnboundLocalError: image" ∨ ∃ k, e = "KeyError: " ++ k))
    ∧ (∃ e, getitemKeys index (buildIndex (mergeCaptions fine coarse) num cats).2.1.length
          (buildMultimodalIndex (mergeCaptions fine coarse) num cats).length ol
        = .error e) := by
  have hacc : acceptsOutputlist ol = true := by
    unfold acceptsOutputlist
    rw [List.all_eq_true]
    intro x hx
    simpa using hsub x hx
  have hn := Nat.not_le.mpr hidx
  have hlim : 0 < num →
      getitemKeys index (buildIndex (mergeCaptions fine coarse) num cats).2.1.length
          (buildMultimodalIndex (mergeCaptions fine coarse) num cats).length ol
        = .error "IndexError: multimodal_data_path_names" := by
    intro hpos
    have hzero : (buildMultimodalIndex (mergeCaptions fine coarse) num cats).length = 0 := by
      rw [buildMultimodalIndex_limited (mergeCaptions fine coarse) num cats hpos]
      rfl
    unfold getitemKeys
    rw [if_neg hn, hzero, if_pos (Nat.zero_le index)]
  have hunlim : num ≤ 0 →
      ∃ e, getitemKeys index (buildIndex (mergeCaptions fine coarse) num cats).2.1.length
          (buildMultimodalIndex (mergeCaptions fine coarse) num cats).length ol = .error e
        ∧ (e = "UnboundLocalError: image" ∨ ∃ k, e = "KeyError: " ++ k) := by
    intro hle
    obtain ⟨k, hkol, hknc⟩ := hnc
    have hmm : (buildMultimodalIndex (mergeCaptions fine coarse) num cats).length
        = (buildIndex (mergeCaptions fine coarse) num cats).2.1.length :=
      buildMultimodalIndex_unlimited_length (mergeCaptions fine coarse) num cats hle
    unfold getitemKeys
    rw [if_neg hn, hmm, if_neg hn]
    by_cases hm : (needsMaskBranch ol && !needsImage ol) = true
    · rw [if_pos hm]
      exact ⟨"UnboundLocalError: image", rfl, Or.inl rfl⟩
    · rw [if_neg hm]
      obtain ⟨k', hk'⟩ := assembleResult_fails (boundLocals ol) ol [] k hkol
        (neverComputed_not_bound ol k hknc)
      exact ⟨"KeyError: " ++ k', hk', Or.inr ⟨k', rfl⟩⟩
  refine ⟨hacc, hlim, hunlim, ?_⟩
  rcases lt_or_le 0 num with hpos | hle
  · exact ⟨_, hlim hpos⟩
  · obtain ⟨e, he, _⟩ := hunlim hle
    exact ⟨e, he⟩

/-- Witness for C10 (amended): on a concrete limited-mode dataset
(`num_test_image = 1`), the `["skeleton"]` request at the valid index 0
fails with the line-142 `IndexError`. -/
theorem getitem_never_computed_error_witness :
    getitemKeys 0
        (buildIndex (mergeCaptions [] [("g", ["cap"])]) 1
          [("upper_body", [("i_0.jpg", "g_1.jpg")])]).2.1.length
        (buildMultimodalIndex (mergeCaptions [] [("g", ["cap"])]) 1
          [("upper_body", [("i_0.jpg", "g_1.jpg")])]).length ["skeleton"]
      = .error "IndexError: multimodal_data_path_names" :=
  (getitem_never_computed_error [] [("g", ["cap"])] 1
      [("upper_body", [("i_0.jpg", "g_1.jpg")])] 0 ["skeleton"]
      (by decide) ⟨"skeleton", by decide, by decide⟩ (by decide)).2.1 (by decide)

/-- C10 counterexample: with output list `["im_mask", "cloth"]` the failure
is the line-376 `UnboundLocalError`, raised before the result mapping is
ever assembled; and on a limited-mode dataset (`num_test_image = 2`) the
`["skeleton"]` request fails with the line-142 `IndexError`, which is not a
name-lookup error at all — neither matches the assembly-loop `KeyError` the
claim describes. -/
theorem getitem_error_before_assembly :
    getitemKeys 0 1 1 ["im_mask", "cloth"] = .error "UnboundLocalError: image"
    ∧ getitemKeys 0
        (buildIndex (mergeCaptions [] [("g", ["cap"])]) 2
          [("upper_body", [("i_0.jpg", "g_1.jpg")])]).2.1.length
        (buildMultimodalIndex (mergeCaptions [] [("g", ["cap"])]) 2
          [("upper_body", [("i_0.jpg", "g_1.jpg")])]).length
        ["skeleton"] = .error "IndexError: multimodal_data_path_names" :=
  ⟨rfl, rfl⟩

/-- C4 (amended): one `__getitem__` call never touches the index sequences,
leaves the whole state unchanged unless captions are requested in phase
`train`, and in that remaining case its only state effect is the in-place
shuffle of the caption list stored under the sample's garment id — other
caption keys keep their bindings, and the shuffled binding is a permutation
of the old list. -/
theorem getitem_state_frame (ol : List String) (phase gid : String) (p : List Nat)
    (s : DatasetState) :
    ((getitemStateAfter ol phase gid p s).im_names = s.im_names
      ∧ (getitemStateAfter ol phase gid p s).c_names = s.c_names
      ∧ (getitemStateAfter ol phase gid p s).dataroot_names = s.dataroot_names)
    ∧ (¬(needsCaptions ol = true ∧ phase = "train") →
        getitemStateAfter ol phase gid p s = s)
    ∧ (∀ k, k ≠ gid →
        dictLookup (getitemStateAfter ol phase gid p s).captions_dict k
          = dictLookup s.captions_dict k)
    ∧ (∀ v, dictLookup s.captions_dict gid = some v → p.Perm (List.range v.length) →
        ∃ v', dictLookup (getitemStateAfter ol phase gid p s).captions_dict gid = some v'
          ∧ v'.Perm v) := by
  by_cases hc : (needsCaptions ol && (phase == "train")) = true
  · have hc' : needsCaptions ol = true ∧ phase = "train" := by
      simpa [Bool.and_eq_true, beq_iff_eq] using hc
    have hs : getitemStateAfter ol phase gid p s
        = { s with captions_dict := shuffleValueAt gid p s.captions_dict } := by
      unfold getitemStateAfter
      rw [if_pos hc]
    refine ⟨⟨by rw [hs], by rw [hs], by rw [hs]⟩, ?_, ?_, ?_⟩
    · intro hcon; exact absurd hc' hcon
    · intro k hk
      rw [hs]
      simp [dictLookup_shuffleValueAt, hk]
    · intro v hv hp
      refine ⟨applyPerm p v, ?_, applyPerm_perm p v hp⟩
      rw [hs]
      simp [dictLookup_shuffleValueAt, hv]
  · have hs : getitemStateAfter ol phase gid p s = s := by
      unfold getitemStateAfter
      rw [if_neg hc]
    refine ⟨⟨by rw [hs], by rw [hs], by rw [hs]⟩, fun _ => hs, fun k _ => by rw [hs], ?_⟩
    intro v hv _
    exact ⟨v, by rw [hs]; exact hv, List.Perm.refl v⟩

/-- Witness for C4 (amended): a concrete train-phase caption request
permutes the stored caption list of the sample's garment id. -/
theorem getitem_state_frame_witness :
    ∃ v', dictLookup (getitemStateAfter ["original_captions"] "train" "g" [1, 0]
          ⟨[("g", ["a", "b"])], [], [], []⟩).captions_dict "g" = some v'
        ∧ v'.Perm ["a", "b"] :=
  (getitem_state_frame ["original_captions"] "train" "g" [1, 0]
      ⟨[("g", ["a", "b"])], [], [], []⟩).2.2.2 ["a", "b"] (by decide) (by decide)

/-- C4 counterexample: in phase `train` with captions requested, an
extraction call whose shuffle draws the swap permutation leaves the caption
table changed — the state is not identical before and after the call. -/
theorem getitem_mutates_captions :
    getitemStateAfter ["captions"] "train" "g" [1, 0]
        ⟨[("g", ["a", "b"])], [], [], []⟩
      ≠ ⟨[("g", ["a", "b"])], [], [], []⟩ := by decide

/-- C6 (amended): raw keypoint coordinates are rescaled by `width/384` and
`height/512` (so raw `(384, 512)` maps exactly to `(width, height)`), and the
filled square of radius `radius * height/512` is stamped into the per-point
heatmap and the pose-visualization image exactly when both rescaled
coordinates exceed 1; when either rescaled coordinate is at most 1 — in
particular at the sentinel `(0.5, 0.5)` — nothing is stamped. -/
theorem drawPoint_stamp_condition (w h radius : ℚ) (i : Nat) (raw : ℚ × ℚ)
    (st : PoseDrawState) :
    ((384 : ℚ) * (w / 384) = w ∧ (512 : ℚ) * (h / 512) = h)
    ∧ (1 < raw.1 * (w / 384) ∧ 1 < raw.2 * (h / 512) →
        (drawPointStep w h radius i raw st).one_map
            = regionUnion st.one_map
                (squareStamp (raw.1 * (w / 384)) (raw.2 * (h / 512)) (radius * (h / 512)))
          ∧ (drawPointStep w h radius i raw st).im_pose
            = regionUnion st.im_pose
                (squareStamp (raw.1 * (w / 384)) (raw.2 * (h / 512)) (radius * (h / 512))))
    ∧ (¬(1 < raw.1 * (w / 384) ∧ 1 < raw.2 * (h / 512)) →
        drawPointStep w h radius i raw st = st)
    ∧ (specSentinel (raw.1 * (w / 384)) (raw.2 * (h / 512)) →
        drawPointStep w h radius i raw st = st) := by
  have hskip : ¬(1 < raw.1 * (w / 384) ∧ 1 < raw.2 * (h / 512)) →
      drawPointStep w h radius i raw st = st := by
    intro hnlt
    simp only [drawPointStep]
    rw [if_neg hnlt]
  refine ⟨⟨by ring, by ring⟩, ?_, hskip, ?_⟩
  · intro hlt
    constructor <;>
      · simp only [drawPointStep]
        rw [if_pos hlt]
  · intro hsent
    exact hskip (fun hc => absurd hsent.1 (not_le.mpr hc.1))

/-- Witness for C6 (amended): the sentinel point rescaling to `(0.5, 0.5)`
leaves all three pose images untouched. -/
theorem drawPoint_stamp_condition_witness :
    drawPointStep 384 512 5 0 ((1 : ℚ) / 2, 1 / 2)
        ⟨emptyRegion, emptyRegion, emptyRegion⟩
      = ⟨emptyRegion, emptyRegion, emptyRegion⟩ :=
  (drawPoint_stamp_condition 384 512 5 0 (1 / 2, 1 / 2)
      ⟨emptyRegion, emptyRegion, emptyRegion⟩).2.2.2 (by constructor <;> norm_num [specSentinel])

/-- C6 counterexample: the raw point `(1, 400)` at the default 384×512
resolution rescales to `(1, 400)`, which is not the "not detected" sentinel
(its y-coordinate exceeds 1), yet the loop stamps nothing: the center of the
would-be square stays unpainted on the per-point heatmap even though the
square contains it. -/
theorem point_not_sentinel_not_stamped :
    ¬ specSentinel ((1 : ℚ) * (384 / 384)) (400 * (512 / 512))
    ∧ (drawPointStep 384 512 5 0 (1, 400)
        ⟨emptyRegion, emptyRegion, emptyRegion⟩).one_map 1 400 = false
    ∧ squareStamp ((1 : ℚ) * (384 / 384)) (400 * (512 / 512)) (5 * (512 / 512)) 1 400
        = true := by
  refine ⟨?_, ?_, ?_⟩
  · intro hsent
    have h400 : ((400 : ℚ) * (512 / 512)) ≤ 1 := hsent.2
    norm_num at h400
  · have hskip : drawPointStep 384 512 5 0 ((1 : ℚ), 400)
        ⟨emptyRegion, emptyRegion, emptyRegion⟩ = ⟨emptyRegion, emptyRegion, emptyRegion⟩ := by
      simp only [drawPointStep]
      rw [if_neg (by norm_num)]
    rw [hskip]
    rfl
  · norm_num [squareStamp]

/-- C7: in the arm/hand fold step, for categories `dresses` and `upper_body`
the drawn arm image is added into `parse_mask` and the hands mask
(drawn-arms complement AND arm labels) is added into `parser_mask_fixed`,
while for `lower_body` the fold is skipped and both masks are left
unchanged. -/
theorem foldArmHand_spec (cat : String) (pm pmf ia ar : Grid) :
    ((cat = "dresses" ∨ cat = "upper_body") →
        foldArmHand cat pm pmf ia ar = (gridAdd pm ia, gridAdd pmf (handsMask ia ar)))
    ∧ (cat = "lower_body" → foldArmHand cat pm pmf ia ar = (pm, pmf)) := by
  constructor
  · rintro (rfl | rfl)
    · simp only [foldArmHand]
      rw [if_pos (Or.inl trivial), if_pos (Or.inl trivial)]
    · simp only [foldArmHand]
      rw [if_pos (Or.inr (Or.inl trivial)), if_pos (Or.inr trivial)]
  · rintro rfl
    simp only [foldArmHand]
    rw [if_pos (Or.inr (Or.inr trivial)), if_neg (by decide)]

/-- Witness for C7 on constant grids: the fold adds the arm image and hands
mask for `dresses` and is the identity for `lower_body`. -/
theorem foldArmHand_spec_witness :
    foldArmHand "dresses" (fun _ _ => 2) (fun _ _ => 3) (fun _ _ => 255) (fun _ _ => 1)
        = (gridAdd (fun _ _ => 2) (fun _ _ => 255),
            gridAdd (fun _ _ => 3) (handsMask (fun _ _ => 255) (fun _ _ => 1)))
    ∧ foldArmHand "lower_body" (fun _ _ => 2) (fun _ _ => 3) (fun _ _ => 255) (fun _ _ => 1)
        = (fun _ _ => 2, fun _ _ => 3) :=
  ⟨(foldArmHand_spec "dresses" (fun _ _ => 2) (fun _ _ => 3) (fun _ _ => 255)
      (fun _ _ => 1)).1 (Or.inl rfl),
    (foldArmHand_spec "lower_body" (fun _ _ => 2) (fun _ _ => 3) (fun _ _ => 255)
      (fun _ _ => 1)).2 rfl⟩

lemma mem_nonzeroCols (h w : Nat) (m : Mask) (y x : Nat)
    (hy : y < h) (hx : x < w) (hm : m y x = true) : x ∈ nonzeroCols h w m := by
  unfold nonzeroCols
  rw [List.mem_filter]
  refine ⟨List.mem_range.mpr hx, ?_⟩
  rw [List.any_eq_true]
  exact ⟨y, List.mem_range.mpr hy, hm⟩

lemma mem_nonzeroRows (h w : Nat) (m : Mask) (y x : Nat)
    (hy : y < h) (hx : x < w) (hm : m y x = true) : y ∈ nonzeroRows h w m := by
  unfold nonzeroRows
  rw [List.mem_filter]
  refine ⟨List.mem_range.mpr hy, ?_⟩
  rw [List.any_eq_true]
  exact ⟨x, List.mem_range.mpr hx, hm⟩

lemma min?_getD_spec (l : List Nat) (hne : l ≠ []) :
    (l.min?.getD 0) ∈ l ∧ ∀ b ∈ l, (l.min?.getD 0) ≤ b := by
  cases hl : l.min? with
  | none =>
    rw [List.min?_eq_none_iff] at hl
    exact absurd hl hne
  | some a =>
    have hspec := (List.min?_eq_some_iff (fun a => Nat.le_refl a)
      (fun a b => min_choice a b) (fun a b c => le_min_iff)).mp hl
    simpa [hl] using hspec

lemma max?_getD_spec (l : List Nat) (hne : l ≠ []) :
    (l.max?.getD 0) ∈ l ∧ ∀ b ∈ l, b ≤ (l.max?.getD 0) := by
  cases hl : l.max? with
  | none =>
    rw [List.max?_eq_none_iff] at hl
    exact absurd hl hne
  | some a =>
    have hspec := (List.max?_eq_some_iff (fun a => Nat.le_refl a)
      (fun a b => max_choice a b) (fun a b c => max_le_iff)).mp hl
    simpa [hl] using hspec

/-- C8: the bounding box computed at lines 380-385 is the min/max row and
column of `inpaint_mask`'s nonzero pixels (it contains every in-range
nonzero pixel and each of its four edges is attained by a nonzero
coordinate), and the slice assignment of lines 387-389 overwrites every
pixel inside the box with NOT `parser_mask_fixed` while every pixel outside
the box keeps its previous `inpaint_mask` value. -/
theorem boxRewrite_spec (h w : Nat) (m pmf : Mask) :
    (∀ y x, y < h → x < w → m y x = true → inBbox h w m y x)
    ∧ (∀ y x, y < h → x < w → m y x = true →
        bboxXmin h w m ∈ nonzeroCols h w m ∧ bboxXmax h w m ∈ nonzeroCols h w m
          ∧ bboxYmin h w m ∈ nonzeroRows h w m ∧ bboxYmax h w m ∈ nonzeroRows h w m)
    ∧ (∀ y x, inBbox h w m y x → boxRewrite h w m pmf y x = !(pmf y x))
    ∧ (∀ y x, ¬ inBbox h w m y x → boxRewrite h w m pmf y x = m y x) := by
  refine ⟨?_, ?_, ?_, ?_⟩
  · intro y x hy hx hm
    have hxc := mem_nonzeroCols h w m y x hy hx hm
    have hyr := mem_nonzeroRows h w m y x hy hx hm
    have hcne := List.ne_nil_of_mem hxc
    have hrne := List.ne_nil_of_mem hyr
    exact ⟨(min?_getD_spec _ hrne).2 y hyr, (max?_getD_spec _ hrne).2 y hyr,
      (min?_getD_spec _ hcne).2 x hxc, (max?_getD_spec _ hcne).2 x hxc⟩
  · intro y x hy hx hm
    have hcne := List.ne_nil_of_mem (mem_nonzeroCols h w m y x hy hx hm)
    have hrne := List.ne_nil_of_mem (mem_nonzeroRows h w m y x hy hx hm)
    exact ⟨(min?_getD_spec _ hcne).1, (max?_getD_spec _ hcne).1,
      (min?_getD_spec _ hrne).1, (max?_getD_spec _ hrne).1⟩
  · intro y x hin
    unfold boxRewrite
    rw [if_pos hin]
  · intro y x hout
    unfold boxRewrite
    rw [if_neg hout]

/-- Witness for C8 on a concrete 2×2 mask with a single nonzero pixel: that
pixel is inside the computed box, and the rewrite there yields NOT
`parser_mask_fixed`. -/
theorem boxRewrite_spec_witness :
    inBbox 2 2 (fun y x => decide (y = 1 ∧ x = 0)) 1 0
    ∧ boxRewrite 2 2 (fun y x => decide (y = 1 ∧ x = 0)) (fun _ _ => false) 1 0 = true := by
  have hspec := boxRewrite_spec 2 2 (fun y x => decide (y = 1 ∧ x = 0)) (fun _ _ => false)
  have hin : inBbox 2 2 (fun y x => decide (y = 1 ∧ x = 0)) 1 0 :=
    hspec.1 1 0 (by decide) (by decide) (by decide)
  refine ⟨hin, ?_⟩
  rw [hspec.2.2.1 1 0 hin]
  rfl

end DressCode

namespace ImageComposition

/-- C9: the compositors are pure pixelwise functions — `compose_img` derives
the head mask as the union of label codes 1, 2, 4 and 13 and each output
pixel equals the ground-truth pixel where the mask holds and the normalized
generated pixel (`generated/255`) elsewhere; `compose_img_dresscode` with a
precomputed head mask returns the ground-truth pixel where the mask holds
and the generated pixel elsewhere. -/
theorem compose_pixelwise (gt fake : Img) (parse : LabelGrid)
    (mask : Nat → Nat → Bool) (y x : Nat) :
    (compose_img gt fake parse y x
        = if segHead parse y x then gt y x else fake y x / 255)
    ∧ (compose_img_dresscode gt fake mask y x
        = if mask y x then gt y x else fake y x)
    ∧ (segHead parse y x = true ↔
        (parse y x = 1 ∨ parse y x = 2 ∨ parse y x = 4 ∨ parse y x = 13)) := by
  refine ⟨?_, ?_, ?_⟩
  · unfold compose_img maskMul
    cases hs : segHead parse y x <;> simp [hs]
  · unfold compose_img_dresscode maskMul
    cases hs : mask y x <;> simp [hs]
  · unfold segHead
    simp [Bool.or_eq_true, beq_iff_eq, or_assoc]

end ImageComposition
